import Mathlib

/-!
Verification of the HealthPro cryptic repository's core logic: the hybrid
RSA/AES envelope codec (`src/lib/encrypt.ts` and the unnamed decrypt module)
and the JWT token codec (`src/lib/encrypt.ts`, `src/lib/jwt.ts`).

Strings are modelled as `List Nat` of character codes (the code only ever
handles latin-1 "byte strings"); JS machine arithmetic on 8-bit byte values
is modelled on `Nat` with explicit bounds where overflow matters.
-/

/-- Character codes used throughout: ':' = 58, '.' = 46, '=' = 61,
'+' = 43, '/' = 47, '-' = 45, '_' = 95. -/
def strBytes (s : String) : List Nat := s.data.map Char.toNat

/-! ### Base64: forge.util.encode64 / decode64, WHATWG btoa / atob -/

/-- The value of position `n` of the standard base64 alphabet
"ABCDEFGHIJKLMNOPQRSTUVWXYZabcdefghijklmnopqrstuvwxyz0123456789+/". -/
def b64val (n : Nat) : Nat :=
  if n < 26 then 65 + n
  else if n < 52 then 97 + (n - 26)
  else if n < 62 then 48 + (n - 52)
  else if n = 62 then 43
  else 47

/-- `_base64.charAt(n)`: a one-character string for an in-range index, and the
empty string for an out-of-range index (JS `String.charAt` semantics). -/
def b64char (n : Nat) : List Nat := if n < 64 then [b64val n] else []

/-- forge's `_base64Idx` table: alphabet position of a character code,
with `'='` mapped to 64. -/
def b64idx (c : Nat) : Nat :=
  if 65 ≤ c ∧ c ≤ 90 then c - 65
  else if 97 ≤ c ∧ c ≤ 122 then c - 71
  else if 48 ≤ c ∧ c ≤ 57 then c + 4
  else if c = 43 then 62
  else if c = 47 then 63
  else 64

/-- `forge.util.encode64` (no `maxline` argument, as in this repository):
standard base64 with `'='` padding, three input bytes per four output
characters. -/
def encode64 : List Nat → List Nat
  | [] => []
  | [c1] =>
      b64char (c1 >>> 2) ++ b64char ((c1 &&& 3) <<< 4) ++ [61, 61]
  | [c1, c2] =>
      b64char (c1 >>> 2) ++ b64char (((c1 &&& 3) <<< 4) ||| (c2 >>> 4)) ++
        b64char ((c2 &&& 15) <<< 2) ++ [61]
  | c1 :: c2 :: c3 :: rest =>
      b64char (c1 >>> 2) ++ b64char (((c1 &&& 3) <<< 4) ||| (c2 >>> 4)) ++
        b64char (((c2 &&& 15) <<< 2) ||| (c3 >>> 6)) ++ b64char (c3 &&& 63) ++
        encode64 rest

/-- A character forge's `decode64` keeps: `[A-Za-z0-9+/=]`. -/
def isB64OrEqB (c : Nat) : Bool :=
  (65 ≤ c && c ≤ 90) || (97 ≤ c && c ≤ 122) || (48 ≤ c && c ≤ 57) ||
    c == 43 || c == 47 || c == 61

/-- The decoding loop of `forge.util.decode64` over the `_base64Idx` values of
the kept characters, four at a time; `64` is `'='`.  An incomplete trailing
group reproduces the JS `NaN` arithmetic (missing values contribute 0 to the
bit operations and compare unequal to 64). -/
def decode64Run : List Nat → List Nat
  | e1 :: e2 :: e3 :: e4 :: rest =>
      ((e1 <<< 2) ||| (e2 >>> 4)) ::
        (if e3 = 64 then decode64Run rest
         else (((e2 &&& 15) <<< 4) ||| (e3 >>> 2)) ::
           (if e4 = 64 then decode64Run rest
            else (((e3 &&& 3) <<< 6) ||| e4) :: decode64Run rest))
  | [e1, e2, e3] =>
      ((e1 <<< 2) ||| (e2 >>> 4)) ::
        (if e3 = 64 then []
         else [((e2 &&& 15) <<< 4) ||| (e3 >>> 2), (e3 &&& 3) <<< 6])
  | [e1, e2] => [(e1 <<< 2) ||| (e2 >>> 4), (e2 &&& 15) <<< 4, 0]
  | [e1] => [e1 <<< 2, 0, 0]
  | [] => []

/-- `forge.util.decode64`: strip every character outside `[A-Za-z0-9+/=]`,
then run the four-character decoding loop. -/
def decode64 (s : List Nat) : List Nat :=
  decode64Run ((s.filter isB64OrEqB).map b64idx)

/-- ASCII whitespace as removed by WHATWG forgiving-base64 (`atob`). -/
def isWsB (c : Nat) : Bool := c == 9 || c == 10 || c == 12 || c == 13 || c == 32

/-- A character of the standard base64 alphabet (no `'='`). -/
def isStdB64B (c : Nat) : Bool :=
  (65 ≤ c && c ≤ 90) || (97 ≤ c && c ≤ 122) || (48 ≤ c && c ≤ 57) ||
    c == 43 || c == 47

/-- Remove two trailing `'='` if the string ends in `"=="`, else one if it
ends in `"="` (WHATWG forgiving-base64, step for padding). -/
def stripPad (s : List Nat) : List Nat :=
  if s.getLast? = some 61 then
    if s.dropLast.getLast? = some 61 then s.dropLast.dropLast else s.dropLast
  else s

/-- The bit-accumulator phase of forgiving-base64: input is the list of
alphabet positions (all < 64), whose length is 0, 2 or 3 mod 4; a trailing
group of two or three positions yields one or two bytes, the excess low bits
being discarded. -/
def atobDecode : List Nat → List Nat
  | e1 :: e2 :: e3 :: e4 :: rest =>
      ((e1 <<< 2) ||| (e2 >>> 4)) ::
        (((e2 &&& 15) <<< 4) ||| (e3 >>> 2)) ::
        (((e3 &&& 3) <<< 6) ||| e4) :: atobDecode rest
  | [e1, e2, e3] => [(e1 <<< 2) ||| (e2 >>> 4), ((e2 &&& 15) <<< 4) ||| (e3 >>> 2)]
  | [e1, e2] => [(e1 <<< 2) ||| (e2 >>> 4)]
  | _ => []

/-- Padding-strip stage of forgiving-base64: `'='` is only removed when the
whitespace-free length is a multiple of four. -/
def atobStrip (d0 : List Nat) : List Nat :=
  if d0.length % 4 = 0 then stripPad d0 else d0

/-- Validation-and-decode stage of forgiving-base64. -/
def atobCore (d : List Nat) : Option (List Nat) :=
  if d.length % 4 = 1 then none
  else if d.all isStdB64B then some (atobDecode (d.map b64idx))
  else none

/-- WHATWG `atob` (forgiving-base64 decode): remove ASCII whitespace; when the
length is a multiple of four, strip one or two trailing `'='`; fail when the
remaining length is 1 mod 4 or any character is outside the standard
alphabet; otherwise decode.  `none` models the thrown
`InvalidCharacterError`. -/
def atob (s : List Nat) : Option (List Nat) :=
  atobCore (atobStrip (s.filter (fun c => !isWsB c)))

/-- WHATWG `btoa`: standard base64 of a latin-1 string; throws (`none`) when
some character code exceeds 255. -/
def btoa (s : List Nat) : Option (List Nat) :=
  if s.all (· < 256) then some (encode64 s) else none

/-- `base64UrlEncode` (src/lib/encrypt.ts): `btoa` then
`.replace(/\+/g,'-').replace(/\//g,'_').replace(/=/g,'')`. -/
def base64UrlEncode (s : List Nat) : Option (List Nat) :=
  (btoa s).map fun t =>
    (t.map fun c => if c = 43 then 45 else if c = 47 then 95 else c).filter (· ≠ 61)

/-- The `while (str.length % 4) str += '='` padding loop of
`base64UrlDecode`. -/
def padB64 (s : List Nat) : List Nat :=
  s ++ List.replicate ((4 - s.length % 4) % 4) 61

/-- `base64UrlDecode` (src/lib/encrypt.ts): restore the standard alphabet
(`'-'` → `'+'`, `'_'` → `'/'`), re-add `'='` padding, then `atob`. -/
def base64UrlDecode (s : List Nat) : Option (List Nat) :=
  atob (padB64 (s.map fun c => if c = 45 then 43 else if c = 95 then 47 else c))

/-! ### JS `String.prototype.split` on a single-character separator -/

/-- `s.split(sep)` for a one-character separator: every occurrence splits,
empty pieces are kept, and the result is always nonempty. -/
def jsSplit (sep : Nat) : List Nat → List (List Nat)
  | [] => [[]]
  | c :: rest =>
      if c = sep then [] :: jsSplit sep rest
      else
        match jsSplit sep rest with
        | p :: ps => (c :: p) :: ps
        | [] => [[c]]

/-! ### Arithmetic facts about the base64 bit manipulations -/

theorem lor_shl_add (a b k : Nat) (hb : b < 2 ^ k) : (a <<< k) ||| b = a * 2 ^ k + b := by
  apply Nat.eq_of_testBit_eq
  intro i
  rw [Nat.mul_comm a (2 ^ k), Nat.testBit_or, Nat.testBit_mul_pow_two_add a hb,
    Nat.testBit_shiftLeft]
  by_cases h : k ≤ i
  · have hbi : b.testBit i = false :=
      Nat.testBit_lt_two_pow (lt_of_lt_of_le hb (Nat.pow_le_pow_right (by omega) h))
    simp [h, hbi, Nat.not_lt.mpr h]
  · simp [h, Nat.lt_of_not_le h]

theorem and3_eq (x : Nat) : x &&& 3 = x % 4 := by
  simpa using Nat.and_pow_two_sub_one_eq_mod x 2

theorem and15_eq (x : Nat) : x &&& 15 = x % 16 := by
  simpa using Nat.and_pow_two_sub_one_eq_mod x 4

theorem and63_eq (x : Nat) : x &&& 63 = x % 64 := by
  simpa using Nat.and_pow_two_sub_one_eq_mod x 6

theorem shr2_eq (x : Nat) : x >>> 2 = x / 4 := by
  simpa using Nat.shiftRight_eq_div_pow x 2

theorem shr4_eq (x : Nat) : x >>> 4 = x / 16 := by
  simpa using Nat.shiftRight_eq_div_pow x 4

theorem shr6_eq (x : Nat) : x >>> 6 = x / 64 := by
  simpa using Nat.shiftRight_eq_div_pow x 6

theorem lor4 (a b : Nat) (hb : b < 4) : (a <<< 2) ||| b = a * 4 + b := by
  simpa using lor_shl_add a b 2 (by omega)

theorem lor16 (a b : Nat) (hb : b < 16) : (a <<< 4) ||| b = a * 16 + b := by
  simpa using lor_shl_add a b 4 (by omega)

theorem lor64 (a b : Nat) (hb : b < 64) : (a <<< 6) ||| b = a * 64 + b := by
  simpa using lor_shl_add a b 6 (by omega)

/-- Alphabet index of the first output character of a base64 group. -/
theorem bi1 (c1 : Nat) (h1 : c1 < 256) : c1 >>> 2 < 64 := by
  rw [shr2_eq]; omega

theorem bi2 (c1 c2 : Nat) (h2 : c2 < 256) : ((c1 &&& 3) <<< 4) ||| (c2 >>> 4) < 64 := by
  rw [and3_eq, shr4_eq, lor16 _ _ (by omega)]; omega

theorem bi3 (c2 c3 : Nat) (h3 : c3 < 256) : ((c2 &&& 15) <<< 2) ||| (c3 >>> 6) < 64 := by
  rw [and15_eq, shr6_eq, lor4 _ _ (by omega)]; omega

theorem bi4 (c3 : Nat) : c3 &&& 63 < 64 := by
  rw [and63_eq]; omega

theorem bi2p (c1 : Nat) : (c1 &&& 3) <<< 4 < 64 := by
  rw [and3_eq, Nat.shiftLeft_eq]; have := Nat.mod_lt c1 (y := 4) (by omega); omega

theorem bi3p (c2 : Nat) : (c2 &&& 15) <<< 2 < 64 := by
  rw [and15_eq, Nat.shiftLeft_eq]; have := Nat.mod_lt c2 (y := 16) (by omega); omega

/-- Recovering the first byte of a full base64 group. -/
theorem rec1 (c1 c2 : Nat) (h2 : c2 < 256) :
    ((c1 >>> 2) <<< 2) ||| ((((c1 &&& 3) <<< 4) ||| (c2 >>> 4)) >>> 4) = c1 := by
  rw [and3_eq, shr4_eq c2, lor16 _ _ (by omega), shr4_eq, shr2_eq,
    lor4 _ _ (by omega)]
  omega

/-- Recovering the second byte of a full base64 group. -/
theorem rec2 (c1 c2 c3 : Nat) (h2 : c2 < 256) (h3 : c3 < 256) :
    (((((c1 &&& 3) <<< 4) ||| (c2 >>> 4)) &&& 15) <<< 4) |||
      ((((c2 &&& 15) <<< 2) ||| (c3 >>> 6)) >>> 2) = c2 := by
  have he2 : ((c1 &&& 3) <<< 4) ||| (c2 >>> 4) = c1 % 4 * 16 + c2 / 16 := by
    rw [and3_eq, shr4_eq, lor16 _ _ (by omega)]
  have he3 : ((c2 &&& 15) <<< 2) ||| (c3 >>> 6) = c2 % 16 * 4 + c3 / 64 := by
    rw [and15_eq, shr6_eq, lor4 _ _ (by omega)]
  rw [he2, he3, shr2_eq, and15_eq]
  have hA : (c1 % 4 * 16 + c2 / 16) % 16 = c2 / 16 := by omega
  have hB : (c2 % 16 * 4 + c3 / 64) / 4 = c2 % 16 := by omega
  rw [hA, hB, lor16 _ _ (by omega)]
  omega

/-- Recovering the third byte of a full base64 group. -/
theorem rec3 (c2 c3 : Nat) (h3 : c3 < 256) :
    (((((c2 &&& 15) <<< 2) ||| (c3 >>> 6)) &&& 3) <<< 6) ||| (c3 &&& 63) = c3 := by
  rw [and15_eq, shr6_eq, lor4 _ _ (by omega), and3_eq, and63_eq,
    lor64 _ _ (by omega)]
  omega

/-- Recovering the byte of a one-byte trailing group. -/
theorem rec1p (c1 : Nat) :
    ((c1 >>> 2) <<< 2) ||| (((c1 &&& 3) <<< 4) >>> 4) = c1 := by
  have h : ((c1 &&& 3) <<< 4) >>> 4 = c1 % 4 := by
    rw [and3_eq, Nat.shiftLeft_eq, shr4_eq]
    omega
  rw [h, shr2_eq, lor4 _ _ (by omega)]
  omega

/-- Recovering the second byte of a two-byte trailing group. -/
theorem rec2p (c1 c2 : Nat) (h2 : c2 < 256) :
    (((((c1 &&& 3) <<< 4) ||| (c2 >>> 4)) &&& 15) <<< 4) |||
      (((c2 &&& 15) <<< 2) >>> 2) = c2 := by
  have he2 : ((c1 &&& 3) <<< 4) ||| (c2 >>> 4) = c1 % 4 * 16 + c2 / 16 := by
    rw [and3_eq, shr4_eq, lor16 _ _ (by omega)]
  have he3 : ((c2 &&& 15) <<< 2) >>> 2 = c2 % 16 := by
    rw [and15_eq, Nat.shiftLeft_eq, shr2_eq]
    omega
  rw [he2, he3, and15_eq]
  have hA : (c1 % 4 * 16 + c2 / 16) % 16 = c2 / 16 := by omega
  rw [hA, lor16 _ _ (by omega)]
  omega

/-- `b64idx` inverts `b64val` on alphabet positions. -/
theorem b64idx_b64val (n : Nat) (h : n < 64) : b64idx (b64val n) = n := by
  unfold b64val b64idx
  split_ifs <;> omega

/-- Everything `b64val` produces: position in the alphabet ranges. -/
theorem b64val_props (n : Nat) (h : n < 64) :
    isStdB64B (b64val n) = true ∧ isB64OrEqB (b64val n) = true ∧
    isWsB (b64val n) = false ∧ b64val n ≠ 61 ∧ b64val n ≠ 58 ∧ b64val n ≠ 46 ∧
    b64val n ≠ 45 ∧ b64val n ≠ 95 ∧ b64val n < 256 ∧ b64val n ≠ 64 := by
  unfold b64val isStdB64B isB64OrEqB isWsB
  split_ifs <;> refine ⟨?_, ?_, ?_, by omega, by omega, by omega, by omega, by omega, by omega, by omega⟩ <;>
    simp <;> omega

theorem b64idx_61 : b64idx 61 = 64 := by decide

/-- Structure of `encode64` on byte strings: an alphabet core followed by at
most two `'='`, total length a multiple of four; both the forgiving decode
loop (on the core) and forge's decode loop (on the whole output) invert it. -/
theorem encode64_spec (s : List Nat) :
    (∀ b ∈ s, b < 256) →
    ∃ core k,
      encode64 s = core ++ List.replicate k 61 ∧
      k ≤ 2 ∧
      (core.length + k) % 4 = 0 ∧
      (∀ c ∈ core, ∃ n, n < 64 ∧ c = b64val n) ∧
      atobDecode (core.map b64idx) = s ∧
      decode64Run ((core ++ List.replicate k 61).map b64idx) = s := by
  induction s using encode64.induct with
  | case1 =>
      intro _
      exact ⟨[], 0, rfl, by omega, by simp, by simp, rfl, rfl⟩
  | case2 c1 =>
      intro hs
      have h1 : c1 < 256 := hs c1 (by simp)
      refine ⟨[b64val (c1 >>> 2), b64val ((c1 &&& 3) <<< 4)], 2, ?_, by omega,
        by simp, ?_, ?_, ?_⟩
      · simp [encode64, b64char, bi1 c1 h1, bi2p c1]
      · intro c hc
        simp only [List.mem_cons, List.not_mem_nil, or_false] at hc
        rcases hc with h | h
        · exact ⟨_, bi1 c1 h1, h⟩
        · exact ⟨_, bi2p c1, h⟩
      · simp [b64idx_b64val _ (bi1 c1 h1), b64idx_b64val _ (bi2p c1), atobDecode,
          rec1p c1]
        rw [and3_eq, shr2_eq, lor4 _ _ (by omega)]
        omega
      · simp [b64idx_b64val _ (bi1 c1 h1), b64idx_b64val _ (bi2p c1), b64idx_61,
          decode64Run, rec1p c1]
        rw [and3_eq, shr2_eq, lor4 _ _ (by omega)]
        omega
  | case3 c1 c2 =>
      intro hs
      have h1 : c1 < 256 := hs c1 (by simp)
      have h2 : c2 < 256 := hs c2 (by simp)
      have hne3 : ((c2 &&& 15) <<< 2) ≠ 64 := by have := bi3p c2; omega
      refine ⟨[b64val (c1 >>> 2), b64val (((c1 &&& 3) <<< 4) ||| (c2 >>> 4)),
        b64val ((c2 &&& 15) <<< 2)], 1, ?_, by omega, by simp, ?_, ?_, ?_⟩
      · simp [encode64, b64char, bi1 c1 h1, bi2 c1 c2 h2, bi3p c2]
      · intro c hc
        simp only [List.mem_cons, List.not_mem_nil, or_false] at hc
        rcases hc with h | h | h
        · exact ⟨_, bi1 c1 h1, h⟩
        · exact ⟨_, bi2 c1 c2 h2, h⟩
        · exact ⟨_, bi3p c2, h⟩
      · simp [b64idx_b64val _ (bi1 c1 h1), b64idx_b64val _ (bi2 c1 c2 h2),
          b64idx_b64val _ (bi3p c2), atobDecode, rec1 c1 c2 h2, rec2p c1 c2 h2]
        have he2 : ((c1 &&& 3) <<< 4) ||| (c2 >>> 4) = c1 % 4 * 16 + c2 / 16 := by
          rw [and3_eq, shr4_eq, lor16 _ _ (by omega)]
        rw [he2, and15_eq, and15_eq]
        have hA : (c1 % 4 * 16 + c2 / 16) % 16 = c2 / 16 := by omega
        rw [hA, lor16 _ _ (by omega)]
        omega
      · simp [b64idx_b64val _ (bi1 c1 h1), b64idx_b64val _ (bi2 c1 c2 h2),
          b64idx_b64val _ (bi3p c2), b64idx_61, decode64Run, hne3,
          rec1 c1 c2 h2, rec2p c1 c2 h2]
        have he2 : ((c1 &&& 3) <<< 4) ||| (c2 >>> 4) = c1 % 4 * 16 + c2 / 16 := by
          rw [and3_eq, shr4_eq, lor16 _ _ (by omega)]
        rw [he2, and15_eq, and15_eq]
        have hA : (c1 % 4 * 16 + c2 / 16) % 16 = c2 / 16 := by omega
        rw [hA, lor16 _ _ (by omega)]
        omega
  | case4 c1 c2 c3 rest ih =>
      intro hs
      have h1 : c1 < 256 := hs c1 (by simp)
      have h2 : c2 < 256 := hs c2 (by simp)
      have h3 : c3 < 256 := hs c3 (by simp)
      have hrest : ∀ b ∈ rest, b < 256 := fun b hb => hs b (by simp [hb])
      obtain ⟨core, k, he, hk, hlen, hmem, hat, hdec⟩ := ih hrest
      have hne3 : (((c2 &&& 15) <<< 2) ||| (c3 >>> 6)) ≠ 64 := by
        have := bi3 c2 c3 h3; omega
      have hne4 : (c3 &&& 63) ≠ 64 := by have := bi4 c3; omega
      refine ⟨b64val (c1 >>> 2) :: b64val (((c1 &&& 3) <<< 4) ||| (c2 >>> 4)) ::
        b64val (((c2 &&& 15) <<< 2) ||| (c3 >>> 6)) :: b64val (c3 &&& 63) :: core,
        k, ?_, hk, by simp; omega, ?_, ?_, ?_⟩
      · simp [encode64, b64char, bi1 c1 h1, bi2 c1 c2 h2, bi3 c2 c3 h3, bi4 c3, he]
      · intro c hc
        simp only [List.mem_cons] at hc
        rcases hc with h | h | h | h | h
        · exact ⟨_, bi1 c1 h1, h⟩
        · exact ⟨_, bi2 c1 c2 h2, h⟩
        · exact ⟨_, bi3 c2 c3 h3, h⟩
        · exact ⟨_, bi4 c3, h⟩
        · exact hmem c h
      · simp [b64idx_b64val _ (bi1 c1 h1), b64idx_b64val _ (bi2 c1 c2 h2),
          b64idx_b64val _ (bi3 c2 c3 h3), b64idx_b64val _ (bi4 c3), atobDecode,
          rec1 c1 c2 h2, rec2 c1 c2 c3 h2 h3, rec3 c2 c3 h3, hat]
      · have hdec' : decode64Run (List.map b64idx core ++ List.replicate k 64) = rest := by
          simpa [b64idx_61] using hdec
        simp [b64idx_b64val _ (bi1 c1 h1), b64idx_b64val _ (bi2 c1 c2 h2),
          b64idx_b64val _ (bi3 c2 c3 h3), b64idx_b64val _ (bi4 c3), b64idx_61,
          decode64Run, hne3, hne4, rec1 c1 c2 h2, rec2 c1 c2 c3 h2 h3,
          rec3 c2 c3 h3, hdec']

/-- Character-level facts about `encode64` output on byte strings. -/
theorem encode64_chars (s : List Nat) (hs : ∀ b ∈ s, b < 256) :
    ∀ c ∈ encode64 s, c < 256 ∧ c ≠ 58 ∧ c ≠ 46 ∧ c ≠ 45 ∧ c ≠ 95 ∧
      isB64OrEqB c = true ∧ isWsB c = false := by
  obtain ⟨core, k, he, -, -, hmem, -, -⟩ := encode64_spec s hs
  intro c hc
  rw [he, List.mem_append] at hc
  rcases hc with hc | hc
  · obtain ⟨n, hn, rfl⟩ := hmem c hc
    obtain ⟨-, h2, h3, -, h5, h6, h7, h8, h9, -⟩ := b64val_props n hn
    exact ⟨h9, h5, h6, h7, h8, h2, h3⟩
  · rw [List.eq_of_mem_replicate hc]
    refine ⟨by omega, by omega, by omega, by omega, by omega, by decide, by decide⟩

/-- forge's decode64 inverts encode64 on byte strings. -/
theorem decode64_encode64 (s : List Nat) (hs : ∀ b ∈ s, b < 256) :
    decode64 (encode64 s) = s := by
  obtain ⟨core, k, he, hk, hlen, hmem, hat, hdec⟩ := encode64_spec s hs
  unfold decode64
  rw [List.filter_eq_self.mpr (fun c hc => (encode64_chars s hs c hc).2.2.2.2.2.1), he, hdec]

/-- `encode64` produces the empty string only on the empty string (bytes). -/
theorem encode64_eq_nil (s : List Nat) (hs : ∀ b ∈ s, b < 256) :
    encode64 s = [] ↔ s = [] := by
  constructor
  · intro h
    have := decode64_encode64 s hs
    rw [h] at this
    simpa [decode64, decode64Run] using this.symm
  · intro h
    simp [h, encode64]

/-- `encode64` is injective on byte strings. -/
theorem encode64_inj (s t : List Nat) (hs : ∀ b ∈ s, b < 256)
    (ht : ∀ b ∈ t, b < 256) (h : encode64 s = encode64 t) : s = t := by
  have h1 := decode64_encode64 s hs
  have h2 := decode64_encode64 t ht
  rw [h] at h1
  rw [h2] at h1
  exact h1.symm

/-- `stripPad` does nothing to a string without `'='`. -/
theorem stripPad_no61 (s : List Nat) (h61 : ∀ c ∈ s, c ≠ 61) : stripPad s = s := by
  unfold stripPad
  split_ifs with h1 h2
  · exact absurd (h61 61 (List.mem_of_getLast?_eq_some h1)) (by simp)
  · exact absurd (h61 61 (List.mem_of_getLast?_eq_some h1)) (by simp)
  · rfl

/-- `stripPad` removes exactly the `'='` tail appended to an `'='`-free core. -/
theorem stripPad_core (core : List Nat) (k : Nat) (hc : ∀ c ∈ core, c ≠ 61)
    (hk : k ≤ 2) : stripPad (core ++ List.replicate k 61) = core := by
  interval_cases k
  · simpa using stripPad_no61 core hc
  · have h : core ++ List.replicate 1 61 = core ++ [61] := by simp
    rw [h]
    unfold stripPad
    rw [List.getLast?_concat, List.dropLast_concat, if_pos rfl]
    split_ifs with h2
    · exact absurd (hc 61 (List.mem_of_getLast?_eq_some h2)) (by simp)
    · rfl
  · have h : core ++ List.replicate 2 61 = (core ++ [61]) ++ [61] := by simp
    rw [h]
    unfold stripPad
    rw [List.getLast?_concat, List.dropLast_concat, List.getLast?_concat,
      List.dropLast_concat]
    simp

/-- WHATWG `atob` inverts `encode64` on byte strings. -/
theorem atob_encode64 (s : List Nat) (hs : ∀ b ∈ s, b < 256) :
    atob (encode64 s) = some s := by
  obtain ⟨core, k, he, hk, hlen, hmem, hat, hdec⟩ := encode64_spec s hs
  have hchars := encode64_chars s hs
  have hfilter : (encode64 s).filter (fun c => !isWsB c) = encode64 s :=
    List.filter_eq_self.mpr (fun c hc => by simp [(hchars c hc).2.2.2.2.2.2])
  have hcore61 : ∀ c ∈ core, c ≠ 61 := by
    intro c hc
    obtain ⟨n, hn, rfl⟩ := hmem c hc
    exact (b64val_props n hn).2.2.2.1
  have hlen0 : (encode64 s).length % 4 = 0 := by
    rw [he]
    simp only [List.length_append, List.length_replicate]
    omega
  have hstrip : atobStrip (encode64 s) = core := by
    unfold atobStrip
    rw [if_pos hlen0, he, stripPad_core core k hcore61 hk]
  have hlc : core.length % 4 ≠ 1 := by omega
  have hall : core.all isStdB64B = true := by
    rw [List.all_eq_true]
    intro c hc
    obtain ⟨n, hn, rfl⟩ := hmem c hc
    exact (b64val_props n hn).1
  unfold atob atobCore
  rw [hfilter, hstrip, if_neg hlc, if_pos hall, hat]

/-- Restoring the standard alphabet undoes the URL-safe character map on
base64-alphabet characters. -/
theorem urlmap_inverts (core : List Nat)
    (hmem : ∀ c ∈ core, ∃ n, n < 64 ∧ c = b64val n) :
    ((core.map fun c => if c = 43 then 45 else if c = 47 then 95 else c).map
      fun c => if c = 45 then 43 else if c = 95 then 47 else c) = core := by
  rw [List.map_map]
  have h : ∀ c ∈ core, ((fun c => if c = 45 then 43 else if c = 95 then 47 else c) ∘
      fun c => if c = 43 then 45 else if c = 47 then 95 else c) c = id c := by
    intro c hc
    obtain ⟨n, hn, rfl⟩ := hmem c hc
    obtain ⟨-, -, -, -, -, -, h45, h95, -, -⟩ := b64val_props n hn
    by_cases h43 : b64val n = 43
    · simp [h43]
    · by_cases h47 : b64val n = 47
      · simp [h47]
      · simp [h43, h47, h45, h95]
  rw [List.map_congr_left h, List.map_id]

/-- `base64UrlEncode` followed by `base64UrlDecode` restores any byte string;
the encoded form avoids `'+'`, `'/'`, `'='`, `'.'` and `':'`. -/
theorem base64Url_spec (s : List Nat) (hs : ∀ b ∈ s, b < 256) :
    ∃ t, base64UrlEncode s = some t ∧ base64UrlDecode t = some s ∧
      ∀ c ∈ t, c ≠ 43 ∧ c ≠ 47 ∧ c ≠ 61 ∧ c ≠ 46 ∧ c ≠ 58 := by
  obtain ⟨core, k, he, hk, hlen, hmem, hat, hdec⟩ := encode64_spec s hs
  have hball : s.all (· < 256) = true := List.all_eq_true.mpr fun c hc => by
    simpa using hs c hc
  have hbtoa : btoa s = some (encode64 s) := by unfold btoa; rw [if_pos hball]
  have hσcore : ∀ c ∈ core.map fun c => if c = 43 then 45 else if c = 47 then 95
      else c, c ≠ 61 ∧ c ≠ 43 ∧ c ≠ 47 ∧ c ≠ 46 ∧ c ≠ 58 := by
    intro c hc
    rw [List.mem_map] at hc
    obtain ⟨d, hd, rfl⟩ := hc
    obtain ⟨n, hn, rfl⟩ := hmem d hd
    obtain ⟨-, -, -, h61, h58, h46, -, -, -, -⟩ := b64val_props n hn
    by_cases h43 : b64val n = 43
    · simp [h43]
    · by_cases h47 : b64val n = 47
      · simp [h47]
      · simp [h43, h47, h61, h58, h46]
  have ht : base64UrlEncode s =
      some (core.map fun c => if c = 43 then 45 else if c = 47 then 95 else c) := by
    unfold base64UrlEncode
    rw [hbtoa, Option.map_some', he]
    congr 1
    rw [List.map_append, List.map_replicate]
    have h61 : (if (61 : Nat) = 43 then 45 else if (61 : Nat) = 47 then 95
        else 61) = 61 := by decide
    rw [h61, List.filter_append, List.filter_replicate_of_neg (by simp),
      List.append_nil, List.filter_eq_self.mpr]
    intro c hc
    have := (hσcore c hc).1
    simpa using this
  refine ⟨_, ht, ?_, fun c hc => ⟨(hσcore c hc).2.1, (hσcore c hc).2.2.1,
    (hσcore c hc).1, (hσcore c hc).2.2.2.1, (hσcore c hc).2.2.2.2⟩⟩
  unfold base64UrlDecode
  rw [urlmap_inverts core hmem]
  have hpad : padB64 core = core ++ List.replicate k 61 := by
    unfold padB64
    congr 2
    omega
  rw [hpad, ← he]
  exact atob_encode64 s hs

/-- For a string without `'='` and without whitespace, the `'='`-padding loop of
`base64UrlDecode` never changes what `atob` returns. -/
theorem atob_padB64 (s : List Nat) (h61 : ∀ c ∈ s, c ≠ 61)
    (hws : ∀ c ∈ s, isWsB c = false) : atob (padB64 s) = atob s := by
  have hfs : s.filter (fun c => !isWsB c) = s :=
    List.filter_eq_self.mpr fun c hc => by simp [hws c hc]
  have hrep : ∀ j, (s ++ List.replicate j 61).filter (fun c => !isWsB c) =
      s ++ List.replicate j 61 := by
    intro j
    apply List.filter_eq_self.mpr
    intro c hc
    rcases List.mem_append.mp hc with h | h
    · simp [hws c h]
    · rw [List.eq_of_mem_replicate h]; decide
  have h4 : s.length % 4 = 0 ∨ s.length % 4 = 1 ∨ s.length % 4 = 2 ∨
      s.length % 4 = 3 := by omega
  unfold padB64
  rcases h4 with h | h | h | h
  · rw [h]
    simp
  · have hj : (4 - s.length % 4) % 4 = 3 := by omega
    rw [hj]
    unfold atob
    rw [hrep 3, hfs]
    have hstripL : atobStrip (s ++ List.replicate 3 61) = s ++ [61] := by
      unfold atobStrip
      rw [if_pos (by simp; omega)]
      have hform : s ++ List.replicate 3 61 = ((s ++ [61]) ++ [61]) ++ [61] := by
        simp
      rw [hform]
      unfold stripPad
      rw [List.getLast?_concat, List.dropLast_concat, List.getLast?_concat,
        List.dropLast_concat, if_pos rfl, if_pos rfl]
    have hstripR : atobStrip s = s := by
      unfold atobStrip
      rw [if_neg (by omega)]
    rw [hstripL, hstripR]
    unfold atobCore
    have hl1 : (s ++ [61]).length % 4 = 2 := by
      simp only [List.length_append, List.length_cons, List.length_nil]
      omega
    have hallf : (s ++ [61]).all isStdB64B = false := by
      rw [List.all_append]
      simp [isStdB64B]
    rw [hallf]
    split_ifs <;> simp_all
  · have hj : (4 - s.length % 4) % 4 = 2 := by omega
    rw [hj]
    unfold atob
    rw [hrep 2, hfs]
    have hstripL : atobStrip (s ++ List.replicate 2 61) = s := by
      unfold atobStrip
      rw [if_pos (by simp; omega)]
      exact stripPad_core s 2 h61 (by omega)
    have hstripR : atobStrip s = s := by
      unfold atobStrip
      rw [if_neg (by omega)]
    rw [hstripL, hstripR]
  · have hj : (4 - s.length % 4) % 4 = 1 := by omega
    rw [hj]
    unfold atob
    rw [hrep 1, hfs]
    have hstripL : atobStrip (s ++ List.replicate 1 61) = s := by
      unfold atobStrip
      rw [if_pos (by simp; omega)]
      exact stripPad_core s 1 h61 (by omega)
    have hstripR : atobStrip s = s := by
      unfold atobStrip
      rw [if_neg (by omega)]
    rw [hstripL, hstripR]

/-! ### Facts about `jsSplit` -/

theorem jsSplit_ne_nil (sep : Nat) (s : List Nat) : jsSplit sep s ≠ [] := by
  induction s with
  | nil => simp [jsSplit]
  | cons c rest ih =>
      unfold jsSplit
      split_ifs
      · simp
      · match h : jsSplit sep rest with
        | p :: ps => simp
        | [] => simp

theorem jsSplit_no_sep (sep : Nat) (s : List Nat) (h : sep ∉ s) :
    jsSplit sep s = [s] := by
  induction s with
  | nil => rfl
  | cons c rest ih =>
      have hc : c ≠ sep := fun hh => h (by simp [hh])
      have hrest : sep ∉ rest := fun hh => h (by simp [hh])
      unfold jsSplit
      rw [if_neg hc, ih hrest]

theorem jsSplit_cons (sep c : Nat) (rest : List Nat) :
    jsSplit sep (c :: rest) =
      if c = sep then [] :: jsSplit sep rest
      else match jsSplit sep rest with
        | p :: ps => (c :: p) :: ps
        | [] => [[c]] := rfl

theorem jsSplit_append (sep : Nat) (a rest : List Nat) (ha : sep ∉ a) :
    jsSplit sep (a ++ sep :: rest) = a :: jsSplit sep rest := by
  induction a with
  | nil => rw [List.nil_append, jsSplit_cons, if_pos rfl]
  | cons x a' ih =>
      have hx : x ≠ sep := fun hh => ha (by simp [hh])
      have ha' : sep ∉ a' := fun hh => ha (by simp [hh])
      rw [List.cons_append, jsSplit_cons, if_neg hx, ih ha']

/-- Splitting a three-part joined string recovers the parts. -/
theorem jsSplit_three (sep : Nat) (a b c : List Nat) (ha : sep ∉ a)
    (hb : sep ∉ b) (hc : sep ∉ c) :
    jsSplit sep (a ++ sep :: (b ++ sep :: c)) = [a, b, c] := by
  rw [jsSplit_append sep a _ ha, jsSplit_append sep b _ hb, jsSplit_no_sep sep c hc]

theorem jsSplit_length (sep : Nat) (s : List Nat) :
    (jsSplit sep s).length = s.count sep + 1 := by
  induction s with
  | nil => simp [jsSplit]
  | cons c rest ih =>
      unfold jsSplit
      split_ifs with h
      · subst h
        simp [ih, List.count_cons]
      · match hsp : jsSplit sep rest with
        | p :: ps =>
            rw [hsp] at ih
            simp at ih
            simp [List.count_cons, h, ih]
        | [] => exact absurd hsp (jsSplit_ne_nil sep rest)

/-- A token that splits into three pieces contains the separator. -/
theorem mem_of_jsSplit_three (sep : Nat) (s : List Nat)
    (h : (jsSplit sep s).length = 3) : sep ∈ s := by
  have := jsSplit_length sep s
  rw [h] at this
  exact List.count_pos_iff.mp (by omega)

/-! ### JSON-like claim values

Token payloads in this repository are flat objects whose values are null,
booleans, numbers, strings, arrays of strings, or one level of nested object
(the access scope).  `JSON.parse` / `JSON.stringify` are platform builtins and
enter the theorems as abstract codec parameters. -/

inductive JAtom where
  | anull
  | abool (b : Bool)
  | anum (n : Int)
  | astr (s : List Nat)
  | astrArr (xs : List (List Nat))
deriving DecidableEq

inductive JVal where
  | atom (a : JAtom)
  | obj (fields : List (List Nat × JAtom))
deriving DecidableEq

/-- A JS object: association list of fields in literal order.  A duplicated
key (as produced by a spread after explicit fields) is resolved by the later
entry, as in JS. -/
abbrev JObj := List (List Nat × JVal)

/-- JS truthiness: `''`, `0`, `null`, `false` (and `NaN`, unrepresented) are
falsy; every object and array is truthy. -/
def truthy : JVal → Bool
  | .atom .anull => false
  | .atom (.abool b) => b
  | .atom (.anum n) => n != 0
  | .atom (.astr s) => s != []
  | .atom (.astrArr _) => true
  | .obj _ => true

/-- `x || d` where `x` is a possibly-absent property (absent = `undefined`). -/
def jsOr (x : Option JVal) (d : JVal) : JVal :=
  match x with
  | some v => if truthy v then v else d
  | none => d

/-- Property lookup: the last entry for a key wins (JS object-literal
semantics where a spread overrides earlier explicit fields). -/
def objGet : JObj → List Nat → Option JVal
  | [], _ => none
  | (k', v) :: rest, k =>
      match objGet rest k with
      | some w => some w
      | none => if k' = k then some v else none

/-- Numeric coercion used by JS `<=` on claim values: numbers themselves,
booleans as 0/1, null as 0.  Strings, arrays and objects are left out
(treated as NaN: every comparison is false), which matches JS for the
non-numeric text this repository handles. -/
def jsToNumber : JVal → Option Int
  | .atom (.anum n) => some n
  | .atom (.abool b) => some (if b then 1 else 0)
  | .atom .anull => some 0
  | _ => none

/-- JS `v <= m` of a claim value against an integer; false when `v` does not
coerce to a number. -/
def jsLeNum (v : JVal) (m : Int) : Bool :=
  match jsToNumber v with
  | some n => n ≤ m
  | none => false

/-! ### Token codec (src/lib/encrypt.ts and src/lib/jwt.ts) -/

/-- `decodeTokenPayload` (src/lib/encrypt.ts): warn-and-null when the token
has no `'.'`; split on `'.'` and require exactly 3 segments; base64url-decode
the claims segment and `JSON.parse` it; any failure is caught and yields
`null` (`none`).  `jsonParse` abstracts the platform `JSON.parse`. -/
def decodeTokenPayload {J : Type} (jsonParse : List Nat → Option J)
    (token : List Nat) : Option J :=
  if 46 ∈ token then
    if (jsSplit 46 token).length = 3 then
      match base64UrlDecode ((jsSplit 46 token).getD 1 []) with
      | some s => jsonParse s
      | none => none
    else none
  else none

/-- `decodeJWT` (src/lib/jwt.ts): split on `'.'`, require 3 parts, decode the
claims segment with plain `atob` — no URL-safe alphabet restoration and no
re-padding — and parse; exceptions become `null`. -/
def jwtDecodeJWT {J : Type} (jsonParse : List Nat → Option J)
    (token : List Nat) : Option J :=
  if (jsSplit 46 token).length = 3 then
    match atob ((jsSplit 46 token).getD 1 []) with
    | some s => jsonParse s
    | none => none
  else none

/-- `decodeJWT` (src/lib/encrypt.ts, legacy alias): delegates to
`decodeTokenPayload`. -/
def decodeJWTAlias {J : Type} (jsonParse : List Nat → Option J)
    (token : List Nat) : Option J :=
  decodeTokenPayload jsonParse token

/-- `isTokenExpired` (src/lib/encrypt.ts).  `now` stands for
`Math.floor(Date.now() / 1000)`; the `bufferMinutes` parameter defaults to 5
in the source. -/
def isTokenExpired (jsonParse : List Nat → Option JObj) (token : List Nat)
    (now : Int) (bufferMinutes : Int) : Bool :=
  match decodeTokenPayload jsonParse token with
  | none => true
  | some payload =>
      match objGet payload (strBytes "exp") with
      | none => true
      | some v => if truthy v then jsLeNum v (now + bufferMinutes * 60) else true

/-- The record built by `getTokenSummary`.  `expiresAtMs` stands for the
instant rendered by `new Date(exp*1000).toISOString()`; `expiresInMinutes`
is the number in the "`m` minutes" text, `none` for the text "expired". -/
structure TokenSummary where
  valid : Bool
  expired : Bool
  type : JVal
  userId : Option JVal
  expiresInMinutes : Option Int
  roleProfile : Option JVal
  expiresAtMs : Int
deriving DecidableEq

/-- `getTokenSummary` (src/lib/encrypt.ts): null for an undecodable token;
`expired` is `payload.exp <= now` with no buffer, `valid` its negation.
`nowMs` stands for `Date.now()`.  Only numeric `exp` is modelled: with `exp`
absent the source code would throw at `toISOString` (NaN date), and a
non-numeric `exp` is outside the coercions this model covers. -/
def getTokenSummary (jsonParse : List Nat → Option JObj) (token : List Nat)
    (nowMs : Int) : Option TokenSummary :=
  match decodeTokenPayload jsonParse token with
  | none => none
  | some payload =>
      match objGet payload (strBytes "exp") with
      | some (.atom (.anum e)) =>
          let now := nowMs.fdiv 1000
          let isExpired : Bool := e ≤ now
          let timeRemaining := max 0 (e * 1000 - nowMs)
          some
            { valid := !isExpired
              expired := isExpired
              type := jsOr (objGet payload (strBytes "token_type"))
                (.atom (.astr (strBytes "access")))
              userId := objGet payload (strBytes "user_id")
              expiresInMinutes :=
                if timeRemaining > 0 then some (timeRemaining.fdiv 60000) else none
              roleProfile := objGet payload (strBytes "role_profile")
              expiresAtMs := e * 1000 }
      | _ => none

/-- The JWT header object `{ alg: 'HS256', typ: 'JWT' }` of `createJWTHeader`. -/
def headerObj : JObj :=
  [(strBytes "alg", .atom (.astr (strBytes "HS256"))),
   (strBytes "typ", .atom (.astr (strBytes "JWT")))]

/-- `createJWTHeader` (src/lib/encrypt.ts); `jsonStringify` abstracts
`JSON.stringify`. -/
def createJWTHeader (jsonStringify : JObj → List Nat) : Option (List Nat) :=
  base64UrlEncode (jsonStringify headerObj)

/-- The fixed default `access_scope` object of `createMockToken`. -/
def defaultAccessScope : JVal :=
  .obj [(strBytes "level", .astr (strBytes "facility")),
        (strBytes "organization", .astr (strBytes "ORG-001")),
        (strBytes "region", .anull),
        (strBytes "facilities", .astrArr [strBytes "FAC-001"]),
        (strBytes "supplier_id", .anull),
        (strBytes "practitioner_id", .anull),
        (strBytes "org_company_id", .anull),
        (strBytes "region_company_id", .anull)]

/-- The default fields of `createMockToken`'s `fullPayload` literal, in source
order; `now` is `Math.floor(Date.now()/1000)`, `jti` and `sid` the two
`generateRandomId()` draws. -/
def tokenDefaults (payload : JObj) (now : Int) (jti sid : List Nat) : JObj :=
  [(strBytes "iss", .atom (.astr (strBytes "HealthPro ERP Backend"))),
   (strBytes "sub", jsOr (objGet payload (strBytes "user_id"))
      (.atom (.astr (strBytes "test-user")))),
   (strBytes "iat", .atom (.anum now)),
   (strBytes "exp", .atom (.anum (now +
      (if objGet payload (strBytes "token_type") =
          some (.atom (.astr (strBytes "refresh")))
        then 24 * 60 * 60 else 30 * 60)))),
   (strBytes "jti", .atom (.astr jti)),
   (strBytes "session_id", jsOr (objGet payload (strBytes "session_id"))
      (.atom (.astr sid))),
   (strBytes "user_id", jsOr (objGet payload (strBytes "user_id"))
      (.atom (.astr (strBytes "test-user@example.com")))),
   (strBytes "role_profile", jsOr (objGet payload (strBytes "role_profile"))
      (.atom (.astr (strBytes "Healthcare Provider")))),
   (strBytes "access_scope", jsOr (objGet payload (strBytes "access_scope"))
      defaultAccessScope),
   (strBytes "token_type", jsOr (objGet payload (strBytes "token_type"))
      (.atom (.astr (strBytes "access"))))]

/-- `createMockToken` (src/lib/encrypt.ts): the defaults object followed by
the caller's fields (`...payload` spread, explicit field wins), serialized,
base64url-encoded and joined with the fixed header and trailing segment. -/
def createMockToken (jsonStringify : JObj → List Nat) (payload : JObj)
    (now : Int) (jti sid : List Nat) : Option (List Nat) :=
  match createJWTHeader jsonStringify,
      base64UrlEncode (jsonStringify (tokenDefaults payload now jti sid ++ payload)) with
  | some h, some e =>
      some (h ++ 46 :: (e ++ 46 :: strBytes "UNSIGNED_TOKEN_FOR_TESTING_ONLY"))
  | _, _ => none

/-! ### Envelope codec (src/lib/encrypt.ts encryptDataWithRSA_AES and the
unnamed module's decryptDataWithRSA_AES) -/

/-- The distinguishable failures of the envelope codec. -/
inductive DecErr where
  | keyMissing
  | formatInvalid
  | unwrapFailed
  | aesFailed
  | payloadParseFailed
deriving DecidableEq

/-- The cryptographic and serialization primitives the envelope codec calls
out to, abstracted: `rsaEnc`/`rsaDec` are `publicKey.encrypt(·,"RSA-OAEP")` /
`privateKey.decrypt(·,"RSA-OAEP")` for one fixed key pair (a failing unwrap —
wrong key or bad padding — is `none`); `aesEnc`/`aesDec` are AES-256-CBC with
PKCS#7 padding over key, IV and data bytes (`none` when `decipher.finish()`
fails); `jsonStringify`/`jsonParse` are the JSON codec on payloads of type
`α`. -/
structure CryptoPrims (α : Type) where
  rsaEnc : List Nat → List Nat
  rsaDec : List Nat → Option (List Nat)
  aesEnc : List Nat → List Nat → List Nat → List Nat
  aesDec : List Nat → List Nat → List Nat → Option (List Nat)
  jsonStringify : α → List Nat
  jsonParse : List Nat → Option α

/-- `encryptDataWithRSA_AES` (src/lib/encrypt.ts): serialize the payload,
AES-CBC-encrypt it under the fresh `aesKey`/`iv` (passed here as the two
`forge.random.getBytesSync` draws), wrap `encode64(aesKey)` and
`encode64(iv)` with RSA-OAEP, base64 each part, join with `':'` and base64
the joined string.  An empty public key PEM is the thrown key-missing
error. -/
def encryptDataWithRSA_AES {α : Type} (pr : CryptoPrims α) (payload : α)
    (publicKeyPem : List Nat) (aesKey iv : List Nat) :
    Except DecErr (List Nat) :=
  let encryptedJsonData := encode64 (pr.aesEnc aesKey iv (pr.jsonStringify payload))
  if publicKeyPem = [] then .error .keyMissing
  else
    let encryptedAesKey := encode64 (pr.rsaEnc (encode64 aesKey))
    let encryptedIv := encode64 (pr.rsaEnc (encode64 iv))
    .ok (encode64 (encryptedAesKey ++ 58 :: (encryptedIv ++ 58 :: encryptedJsonData)))

/-- `decryptDataWithRSA_AES` (unnamed module): empty private key PEM is the
key-missing error; base64-decode the transport string, split on `':'`;
destructuring takes the first three parts and `!part` fails on a missing or
empty one; unwrap key and IV (RSA-OAEP then base64-decode), AES-CBC-decrypt
the data part, JSON-parse the plaintext. -/
def decryptDataWithRSA_AES {α : Type} (pr : CryptoPrims α)
    (encrypted : List Nat) (privateKeyPem : List Nat) : Except DecErr α :=
  if privateKeyPem = [] then .error .keyMissing
  else
    let parts := jsSplit 58 (decode64 encrypted)
    let encryptedAesKey := parts.getD 0 []
    let encryptedIv := parts.getD 1 []
    let encryptedData := parts.getD 2 []
    if encryptedAesKey = [] ∨ encryptedIv = [] ∨ encryptedData = [] then
      .error .formatInvalid
    else
      match pr.rsaDec (decode64 encryptedAesKey) with
      | none => .error .unwrapFailed
      | some aesKey64 =>
          match pr.rsaDec (decode64 encryptedIv) with
          | none => .error .unwrapFailed
          | some iv64 =>
              match pr.aesDec (decode64 aesKey64) (decode64 iv64)
                  (decode64 encryptedData) with
              | none => .error .aesFailed
              | some plain =>
                  match pr.jsonParse plain with
                  | none => .error .payloadParseFailed
                  | some v => .ok v

/-! ### Object lookup lemmas -/

/-- Lookup through a spread `{...defaults, ...payload}`: the payload wins. -/
theorem objGet_append (d p : JObj) (k : List Nat) :
    objGet (d ++ p) k =
      match objGet p k with
      | some v => some v
      | none => objGet d k := by
  induction d with
  | nil =>
      simp only [List.nil_append, objGet]
      cases objGet p k <;> rfl
  | cons kv d' ih =>
      obtain ⟨k', v⟩ := kv
      simp only [List.cons_append]
      rw [show objGet ((k', v) :: (d' ++ p)) k =
          (match objGet (d' ++ p) k with
           | some w => some w
           | none => if k' = k then some v else none) from rfl, ih]
      cases objGet p k
      · rfl
      · rfl

/-! ### The claims -/

/-- C10: for every 8-bit string `s`, `base64UrlDecode (base64UrlEncode s) = s`
and the encoded form never contains `'+'`, `'/'` or `'='`. -/
theorem c10_base64url_roundtrip (s : List Nat) (hs : ∀ b ∈ s, b < 256) :
    ∃ t, base64UrlEncode s = some t ∧ base64UrlDecode t = some s ∧
      ∀ c ∈ t, c ≠ 43 ∧ c ≠ 47 ∧ c ≠ 61 := by
  obtain ⟨t, h1, h2, h3⟩ := base64Url_spec s hs
  exact ⟨t, h1, h2, fun c hc => ⟨(h3 c hc).1, (h3 c hc).2.1, (h3 c hc).2.2.1⟩⟩

theorem c10_witness :
    (∀ b ∈ strBytes "hi?~", b < 256) ∧
    (∃ t, base64UrlEncode (strBytes "hi?~") = some t ∧
      base64UrlDecode t = some (strBytes "hi?~") ∧
      ∀ c ∈ t, c ≠ 43 ∧ c ≠ 47 ∧ c ≠ 61) :=
  ⟨by decide, c10_base64url_roundtrip (strBytes "hi?~") (by decide)⟩

/-- C6: `decodeTokenPayload` returns `null` (modelled `none`, and it is a
total function, so it never throws) on every input with no `'.'` and on every
input whose `'.'`-split has a segment count other than 3. -/
theorem c6_decode_malformed {J : Type} (jsonParse : List Nat → Option J)
    (token : List Nat)
    (h : 46 ∉ token ∨ (jsSplit 46 token).length ≠ 3) :
    decodeTokenPayload jsonParse token = none := by
  unfold decodeTokenPayload
  rcases h with h | h
  · rw [if_neg h]
  · by_cases hm : 46 ∈ token
    · rw [if_pos hm, if_neg h]
    · rw [if_neg hm]

theorem c6_witness :
    ((46 ∉ strBytes "not-a-jwt" ∨ (jsSplit 46 (strBytes "not-a-jwt")).length ≠ 3) ∧
      decodeTokenPayload (fun _ => some (0 : Nat)) (strBytes "not-a-jwt") = none) ∧
    ((46 ∉ strBytes "a.b" ∨ (jsSplit 46 (strBytes "a.b")).length ≠ 3) ∧
      decodeTokenPayload (fun _ => some (0 : Nat)) (strBytes "a.b") = none) :=
  ⟨⟨by decide, c6_decode_malformed (fun _ => some (0 : Nat)) (strBytes "not-a-jwt")
      (by decide)⟩,
   ⟨by decide, c6_decode_malformed (fun _ => some (0 : Nat)) (strBytes "a.b")
      (by decide)⟩⟩

/-- C4: for every decodable token and current time `now ≥ 0` (seconds since
epoch), `isTokenExpired` with the default 5-minute buffer is true iff the
`exp` claim is absent or `exp ≤ now + 300`; in particular `exp = now - 1` and
`exp = now + 299` are expired and `exp = now + 301` is not. -/
theorem c4_isTokenExpired_boundaries (jsonParse : List Nat → Option JObj)
    (token : List Nat) (payload : JObj) (now : Int)
    (hdec : decodeTokenPayload jsonParse token = some payload)
    (hnow : 0 ≤ now) :
    (objGet payload (strBytes "exp") = none →
      isTokenExpired jsonParse token now 5 = true) ∧
    (∀ e : Int, objGet payload (strBytes "exp") = some (.atom (.anum e)) →
      (isTokenExpired jsonParse token now 5 = true ↔ e ≤ now + 300) ∧
      (e = now - 1 → isTokenExpired jsonParse token now 5 = true) ∧
      (e = now + 299 → isTokenExpired jsonParse token now 5 = true) ∧
      (e = now + 301 → isTokenExpired jsonParse token now 5 = false)) := by
  constructor
  · intro hexp
    simp only [isTokenExpired, hdec, hexp]
  · intro e hexp
    have hval : isTokenExpired jsonParse token now 5 =
        (if truthy (.atom (.anum e)) then jsLeNum (.atom (.anum e)) (now + 5 * 60)
         else true) := by
      simp only [isTokenExpired, hdec, hexp]
    by_cases he : e = 0
    · subst he
      have ht : truthy (.atom (.anum 0)) = false := by decide
      rw [hval, ht]
      refine ⟨⟨fun _ => by omega, fun _ => by simp⟩, fun _ => by simp,
        fun _ => by simp, fun h => by omega⟩
    · have ht : truthy (.atom (.anum e)) = true := by
        simp [truthy, he]
      rw [hval, ht, if_pos rfl]
      have hle : jsLeNum (.atom (.anum e)) (now + 5 * 60) = decide (e ≤ now + 300) := by
        simp only [jsLeNum, jsToNumber]
        norm_num
      rw [hle]
      refine ⟨by simp, fun h => by simp; omega, fun h => by simp; omega,
        fun h => by simp; omega⟩

theorem c4_witness :
    (decodeTokenPayload (fun _ => some [(strBytes "exp", JVal.atom (JAtom.anum 301))])
        (strBytes "aa.aa.aa") =
      some [(strBytes "exp", JVal.atom (JAtom.anum 301))]) ∧
    (0 ≤ (0 : Int)) ∧
    (isTokenExpired (fun _ => some [(strBytes "exp", JVal.atom (JAtom.anum 301))])
      (strBytes "aa.aa.aa") 0 5 = false) := by
  refine ⟨by decide, by decide, ?_⟩
  have h := (c4_isTokenExpired_boundaries
    (fun _ => some [(strBytes "exp", JVal.atom (JAtom.anum 301))])
    (strBytes "aa.aa.aa") [(strBytes "exp", JVal.atom (JAtom.anum 301))] 0
    (by decide) (by decide)).2 301 (by decide)
  exact h.2.2.2 (by decide)

/-- C9: `getTokenSummary` computes `expired` as `exp <= now` with no buffer
and `valid` as its negation, so a decodable token with numeric `exp` in the
window `now < exp ≤ now + 300` is reported valid and not expired by the
summary while `isTokenExpired` with the default 5-minute buffer is true at
the same instant. -/
theorem c9_summary_vs_isTokenExpired (jsonParse : List Nat → Option JObj)
    (token : List Nat) (payload : JObj) (nowMs e : Int)
    (hdec : decodeTokenPayload jsonParse token = some payload)
    (hexp : objGet payload (strBytes "exp") = some (.atom (.anum e)))
    (h1 : nowMs.fdiv 1000 < e) (h2 : e ≤ nowMs.fdiv 1000 + 300) :
    ∃ s, getTokenSummary jsonParse token nowMs = some s ∧
      s.expired = decide (e ≤ nowMs.fdiv 1000) ∧
      s.valid = !s.expired ∧
      s.valid = true ∧ s.expired = false ∧
      isTokenExpired jsonParse token (nowMs.fdiv 1000) 5 = true := by
  have hexpf : decide (e ≤ nowMs.fdiv 1000) = false := by
    simp
    omega
  have hsum : getTokenSummary jsonParse token nowMs = some
      { valid := !decide (e ≤ nowMs.fdiv 1000)
        expired := decide (e ≤ nowMs.fdiv 1000)
        type := jsOr (objGet payload (strBytes "token_type"))
          (.atom (.astr (strBytes "access")))
        userId := objGet payload (strBytes "user_id")
        expiresInMinutes := if max 0 (e * 1000 - nowMs) > 0
          then some ((max 0 (e * 1000 - nowMs)).fdiv 60000) else none
        roleProfile := objGet payload (strBytes "role_profile")
        expiresAtMs := e * 1000 } := by
    simp only [getTokenSummary, hdec, hexp]
  refine ⟨_, hsum, rfl, rfl, ?_, ?_, ?_⟩
  · simp only [hexpf, Bool.not_false]
  · exact hexpf
  · simp only [isTokenExpired, hdec, hexp]
    by_cases he : e = 0
    · subst he
      have ht : truthy (.atom (.anum 0)) = false := by decide
      rw [ht]
      simp
    · have ht : truthy (.atom (.anum e)) = true := by simp [truthy, he]
      rw [ht, if_pos rfl]
      simp only [jsLeNum, jsToNumber]
      simp
      omega

theorem c9_witness :
    (decodeTokenPayload (fun _ => some [(strBytes "exp", JVal.atom (JAtom.anum 100))])
        (strBytes "aa.aa.aa") =
      some [(strBytes "exp", JVal.atom (JAtom.anum 100))]) ∧
    (∃ s, getTokenSummary (fun _ => some [(strBytes "exp", JVal.atom (JAtom.anum 100))])
        (strBytes "aa.aa.aa") 0 = some s ∧
      s.expired = decide ((100 : Int) ≤ (0 : Int).fdiv 1000) ∧
      s.valid = !s.expired ∧
      s.valid = true ∧ s.expired = false ∧
      isTokenExpired (fun _ => some [(strBytes "exp", JVal.atom (JAtom.anum 100))])
        (strBytes "aa.aa.aa") ((0 : Int).fdiv 1000) 5 = true) :=
  ⟨by decide,
   c9_summary_vs_isTokenExpired _ (strBytes "aa.aa.aa")
     [(strBytes "exp", JVal.atom (JAtom.anum 100))] 0 100 (by decide) (by decide)
     (by decide) (by decide)⟩

/-- C2 (amended): the legacy `decodeJWT` of src/lib/jwt.ts returns the same
result as `decodeTokenPayload` on every token whose claims segment contains
none of `'-'`, `'_'`, `'='` or ASCII whitespace; it decodes with plain `atob`
and does not restore the URL-safe alphabet, so the two functions differ on
segments that use `'-'` or `'_'`. -/
theorem c2_decodeJWT_agreement {J : Type} (jsonParse : List Nat → Option J)
    (token : List Nat)
    (h : ∀ c ∈ (jsSplit 46 token).getD 1 [],
      c ≠ 45 ∧ c ≠ 95 ∧ c ≠ 61 ∧ isWsB c = false) :
    jwtDecodeJWT jsonParse token = decodeTokenPayload jsonParse token := by
  by_cases hlen : (jsSplit 46 token).length = 3
  · have hmem : 46 ∈ token := mem_of_jsSplit_three 46 token hlen
    unfold jwtDecodeJWT decodeTokenPayload
    rw [if_pos hlen, if_pos hmem, if_pos hlen]
    have heq : base64UrlDecode ((jsSplit 46 token).getD 1 []) =
        atob ((jsSplit 46 token).getD 1 []) := by
      unfold base64UrlDecode
      have hmap : (((jsSplit 46 token).getD 1 []).map
          fun c => if c = 45 then 43 else if c = 95 then 47 else c) =
          (jsSplit 46 token).getD 1 [] := by
        have hcongr : ∀ c ∈ (jsSplit 46 token).getD 1 [],
            (fun c => if c = 45 then 43 else if c = 95 then 47 else c) c = id c := by
          intro c hc
          simp [(h c hc).1, (h c hc).2.1]
        rw [List.map_congr_left hcongr, List.map_id]
      rw [hmap]
      exact atob_padB64 _ (fun c hc => (h c hc).2.2.1) (fun c hc => (h c hc).2.2.2)
    rw [heq]
  · unfold jwtDecodeJWT decodeTokenPayload
    rw [if_neg hlen]
    by_cases hmem : 46 ∈ token
    · rw [if_pos hmem, if_neg hlen]
    · rw [if_neg hmem]

theorem c2_witness :
    (∀ c ∈ (jsSplit 46 (strBytes "aa.bb.cc")).getD 1 [],
      c ≠ 45 ∧ c ≠ 95 ∧ c ≠ 61 ∧ isWsB c = false) ∧
    jwtDecodeJWT (fun _ => some (0 : Nat)) (strBytes "aa.bb.cc") =
      decodeTokenPayload (fun _ => some (0 : Nat)) (strBytes "aa.bb.cc") :=
  ⟨by decide, c2_decodeJWT_agreement (fun _ => some (0 : Nat))
    (strBytes "aa.bb.cc") (by decide)⟩

/-- C2 counterexample: the claims segment "ImF-Ig" is the base64url encoding
of the valid JSON text `"a~"`; `decodeTokenPayload` restores `'-'` to `'+'`
and decodes it, while jwt.ts `decodeJWT` feeds it to plain `atob`, which
throws on `'-'`, so `decodeJWT` returns `null` — the two disagree. -/
theorem c2_counterexample :
    jwtDecodeJWT
      (fun s => if s = strBytes "\"a~\"" then some (0 : Nat) else none)
      (strBytes "aa.ImF-Ig.aa") = none ∧
    decodeTokenPayload
      (fun s => if s = strBytes "\"a~\"" then some (0 : Nat) else none)
      (strBytes "aa.ImF-Ig.aa") = some 0 ∧
    jwtDecodeJWT
      (fun s => if s = strBytes "\"a~\"" then some (0 : Nat) else none)
      (strBytes "aa.ImF-Ig.aa") ≠
    decodeTokenPayload
      (fun s => if s = strBytes "\"a~\"" then some (0 : Nat) else none)
      (strBytes "aa.ImF-Ig.aa") := by
  refine ⟨by decide, by decide, by decide⟩

/-- C5 (amended): decoding a freshly constructed mock token recovers the full
payload object; every field explicitly set in `C` keeps the value from `C`
(the `...payload` spread wins), and each recognized field absent from `C`
receives its default — issuer fixed, `sub` is `C`'s `user_id` when truthy and
otherwise the placeholder `'test-user'`, `iat = now`,
`exp = now + 30min` (24h when `token_type = 'refresh'`), fresh `jti`, fresh
`session_id`, and the fixed default `access_scope`.  The JSON codec is
abstract with a pointwise round-trip hypothesis. -/
theorem c5_mock_token_roundtrip (jsonStringify : JObj → List Nat)
    (jsonParse : List Nat → Option JObj) (C : JObj) (now : Int)
    (jti sid tok : List Nat)
    (hh : ∀ b ∈ jsonStringify headerObj, b < 256)
    (hp : ∀ b ∈ jsonStringify (tokenDefaults C now jti sid ++ C), b < 256)
    (hrt : jsonParse (jsonStringify (tokenDefaults C now jti sid ++ C)) =
      some (tokenDefaults C now jti sid ++ C))
    (htok : createMockToken jsonStringify C now jti sid = some tok) :
    decodeTokenPayload jsonParse tok = some (tokenDefaults C now jti sid ++ C) ∧
    (∀ k v, objGet C k = some v →
      objGet (tokenDefaults C now jti sid ++ C) k = some v) ∧
    (objGet C (strBytes "iss") = none →
      objGet (tokenDefaults C now jti sid ++ C) (strBytes "iss") =
        some (.atom (.astr (strBytes "HealthPro ERP Backend")))) ∧
    (objGet C (strBytes "sub") = none →
      objGet (tokenDefaults C now jti sid ++ C) (strBytes "sub") =
        some (jsOr (objGet C (strBytes "user_id"))
          (.atom (.astr (strBytes "test-user"))))) ∧
    (objGet C (strBytes "iat") = none →
      objGet (tokenDefaults C now jti sid ++ C) (strBytes "iat") =
        some (.atom (.anum now))) ∧
    (objGet C (strBytes "exp") = none →
      objGet (tokenDefaults C now jti sid ++ C) (strBytes "exp") =
        some (.atom (.anum (now +
          (if objGet C (strBytes "token_type") =
              some (.atom (.astr (strBytes "refresh")))
            then 24 * 60 * 60 else 30 * 60))))) ∧
    (objGet C (strBytes "jti") = none →
      objGet (tokenDefaults C now jti sid ++ C) (strBytes "jti") =
        some (.atom (.astr jti))) ∧
    (objGet C (strBytes "session_id") = none →
      objGet (tokenDefaults C now jti sid ++ C) (strBytes "session_id") =
        some (.atom (.astr sid))) ∧
    (objGet C (strBytes "access_scope") = none →
      objGet (tokenDefaults C now jti sid ++ C) (strBytes "access_scope") =
        some defaultAccessScope) ∧
    (objGet C (strBytes "token_type") = none →
      objGet (tokenDefaults C now jti sid ++ C) (strBytes "token_type") =
        some (.atom (.astr (strBytes "access")))) := by
  obtain ⟨h64, hh1, hh2, hh3⟩ := base64Url_spec (jsonStringify headerObj) hh
  obtain ⟨e64, he1, he2, he3⟩ :=
    base64Url_spec (jsonStringify (tokenDefaults C now jti sid ++ C)) hp
  have htok' : tok =
      h64 ++ 46 :: (e64 ++ 46 :: strBytes "UNSIGNED_TOKEN_FOR_TESTING_ONLY") := by
    unfold createMockToken createJWTHeader at htok
    rw [hh1, he1] at htok
    exact (Option.some.injEq _ _).mp htok.symm
  have hsplit : jsSplit 46 tok =
      [h64, e64, strBytes "UNSIGNED_TOKEN_FOR_TESTING_ONLY"] := by
    rw [htok']
    exact jsSplit_three 46 _ _ _
      (fun hc => (hh3 46 hc).2.2.2.1 rfl)
      (fun hc => (he3 46 hc).2.2.2.1 rfl)
      (by decide)
  refine ⟨?_, ?_, ?_, ?_, ?_, ?_, ?_, ?_, ?_, ?_⟩
  · unfold decodeTokenPayload
    rw [if_pos (mem_of_jsSplit_three 46 tok (by rw [hsplit]; rfl)),
      if_pos (by rw [hsplit]; rfl), hsplit]
    have hget : ([h64, e64, strBytes "UNSIGNED_TOKEN_FOR_TESTING_ONLY"]).getD 1 [] =
        e64 := rfl
    rw [hget, he2]
    exact hrt
  · intro k v hkv
    rw [objGet_append, hkv]
  · intro hnone
    rw [objGet_append, hnone]
    rfl
  · intro hnone
    rw [objGet_append, hnone]
    rfl
  · intro hnone
    rw [objGet_append, hnone]
    rfl
  · intro hnone
    rw [objGet_append, hnone]
    rfl
  · intro hnone
    rw [objGet_append, hnone]
    rfl
  · intro hnone
    rw [objGet_append, hnone]
    rw [show objGet (tokenDefaults C now jti sid) (strBytes "session_id") =
      some (jsOr (objGet C (strBytes "session_id")) (.atom (.astr sid))) from rfl,
      hnone]
    rfl
  · intro hnone
    rw [objGet_append, hnone]
    rw [show objGet (tokenDefaults C now jti sid) (strBytes "access_scope") =
      some (jsOr (objGet C (strBytes "access_scope")) defaultAccessScope) from rfl,
      hnone]
    rfl
  · intro hnone
    rw [objGet_append, hnone]
    rw [show objGet (tokenDefaults C now jti sid) (strBytes "token_type") =
      some (jsOr (objGet C (strBytes "token_type"))
        (.atom (.astr (strBytes "access")))) from rfl, hnone]
    rfl

/-- Concrete claims object for the `sub` default: `user_id` set, `sub` absent. -/
def c5CexPayload : JObj := [(strBytes "user_id", .atom (.astr (strBytes "u1")))]

/-- The full payload `createMockToken` builds from `c5CexPayload` at
`now = 0` with random draws `[106]` and `[107]`. -/
def c5CexFull : JObj := tokenDefaults c5CexPayload 0 [106] [107] ++ c5CexPayload

/-- A degenerate but pointwise-correct JSON codec: the header serializes to
`[1]`, every other object to `[0]`. -/
def c5CexStringify : JObj → List Nat := fun o => if o = headerObj then [1] else [0]

/-- Inverse of `c5CexStringify` on the one payload object in play. -/
def c5CexParse : List Nat → Option JObj :=
  fun s => if s = [0] then some c5CexFull else none

/-- C5 counterexample: with `C = {user_id: "u1"}` (no `sub` field) and a JSON
codec satisfying the round-trip hypothesis, the decoded token's `sub` is
`"u1"`, not the documented placeholder `"test-user"` — `sub` defaults to
`payload.user_id || 'test-user'`, so the claim's "subject a placeholder"
default is wrong whenever `user_id` is set. -/
theorem c5_counterexample :
    c5CexParse (c5CexStringify c5CexFull) = some c5CexFull ∧
    (∀ b ∈ c5CexStringify headerObj, b < 256) ∧
    (∀ b ∈ c5CexStringify c5CexFull, b < 256) ∧
    createMockToken c5CexStringify c5CexPayload 0 [106] [107] =
      some (strBytes "AQ.AA.UNSIGNED_TOKEN_FOR_TESTING_ONLY") ∧
    decodeTokenPayload c5CexParse (strBytes "AQ.AA.UNSIGNED_TOKEN_FOR_TESTING_ONLY") =
      some c5CexFull ∧
    objGet c5CexPayload (strBytes "sub") = none ∧
    objGet c5CexFull (strBytes "sub") = some (.atom (.astr (strBytes "u1"))) ∧
    some (JVal.atom (.astr (strBytes "u1"))) ≠
      some (JVal.atom (.astr (strBytes "test-user"))) := by
  refine ⟨by decide, by decide, by decide, by decide, by decide, by decide,
    by decide, by decide⟩

theorem c5_witness :
    createMockToken c5CexStringify c5CexPayload 0 [106] [107] =
      some (strBytes "AQ.AA.UNSIGNED_TOKEN_FOR_TESTING_ONLY") ∧
    (decodeTokenPayload c5CexParse (strBytes "AQ.AA.UNSIGNED_TOKEN_FOR_TESTING_ONLY") =
        some (tokenDefaults c5CexPayload 0 [106] [107] ++ c5CexPayload) ∧
      (∀ k v, objGet c5CexPayload k = some v →
        objGet (tokenDefaults c5CexPayload 0 [106] [107] ++ c5CexPayload) k = some v) ∧
      (objGet c5CexPayload (strBytes "iss") = none →
        objGet (tokenDefaults c5CexPayload 0 [106] [107] ++ c5CexPayload)
            (strBytes "iss") =
          some (.atom (.astr (strBytes "HealthPro ERP Backend")))) ∧
      (objGet c5CexPayload (strBytes "sub") = none →
        objGet (tokenDefaults c5CexPayload 0 [106] [107] ++ c5CexPayload)
            (strBytes "sub") =
          some (jsOr (objGet c5CexPayload (strBytes "user_id"))
            (.atom (.astr (strBytes "test-user"))))) ∧
      (objGet c5CexPayload (strBytes "iat") = none →
        objGet (tokenDefaults c5CexPayload 0 [106] [107] ++ c5CexPayload)
            (strBytes "iat") = some (.atom (.anum 0))) ∧
      (objGet c5CexPayload (strBytes "exp") = none →
        objGet (tokenDefaults c5CexPayload 0 [106] [107] ++ c5CexPayload)
            (strBytes "exp") =
          some (.atom (.anum (0 +
            (if objGet c5CexPayload (strBytes "token_type") =
                some (.atom (.astr (strBytes "refresh")))
              then 24 * 60 * 60 else 30 * 60))))) ∧
      (objGet c5CexPayload (strBytes "jti") = none →
        objGet (tokenDefaults c5CexPayload 0 [106] [107] ++ c5CexPayload)
            (strBytes "jti") = some (.atom (.astr [106]))) ∧
      (objGet c5CexPayload (strBytes "session_id") = none →
        objGet (tokenDefaults c5CexPayload 0 [106] [107] ++ c5CexPayload)
            (strBytes "session_id") = some (.atom (.astr [107]))) ∧
      (objGet c5CexPayload (strBytes "access_scope") = none →
        objGet (tokenDefaults c5CexPayload 0 [106] [107] ++ c5CexPayload)
            (strBytes "access_scope") = some defaultAccessScope) ∧
      (objGet c5CexPayload (strBytes "token_type") = none →
        objGet (tokenDefaults c5CexPayload 0 [106] [107] ++ c5CexPayload)
            (strBytes "token_type") = some (.atom (.astr (strBytes "access"))))) :=
  ⟨by decide,
   c5_mock_token_roundtrip c5CexStringify c5CexParse c5CexPayload 0 [106] [107]
     (strBytes "AQ.AA.UNSIGNED_TOKEN_FOR_TESTING_ONLY")
     (by decide) (by decide) (by decide) (by decide)⟩

instance {ε α : Type} [DecidableEq ε] [DecidableEq α] :
    DecidableEq (Except ε α) := fun a b =>
  match a, b with
  | .error e, .error f =>
      if h : e = f then .isTrue (congrArg Except.error h)
      else .isFalse fun hc => h (by injection hc)
  | .ok x, .ok y =>
      if h : x = y then .isTrue (congrArg Except.ok h)
      else .isFalse fun hc => h (by injection hc)
  | .error _, .ok _ => .isFalse fun hc => Except.noConfusion hc
  | .ok _, .error _ => .isFalse fun hc => Except.noConfusion hc

/-- C7: the transport string is exactly
`base64( base64(OAEP(base64 key)) ++ ":" ++ base64(OAEP(base64 iv)) ++ ":" ++
base64(CBC(JSON payload)) )`; the OAEP wrap is applied to the base64 text
encoding of the key and IV bytes, never to the raw bytes. -/
theorem c7_transport_format {α : Type} (pr : CryptoPrims α) (P : α)
    (pub aesKey iv : List Nat) (hpub : pub ≠ []) :
    encryptDataWithRSA_AES pr P pub aesKey iv =
      .ok (encode64 (encode64 (pr.rsaEnc (encode64 aesKey)) ++ 58 ::
        (encode64 (pr.rsaEnc (encode64 iv)) ++ 58 ::
          encode64 (pr.aesEnc aesKey iv (pr.jsonStringify P))))) := by
  unfold encryptDataWithRSA_AES
  rw [if_neg hpub]

/-- Primitives for the C7 witness: a formally invertible stand-in key pair
and cipher. -/
def c7Prims : CryptoPrims Nat :=
  { rsaEnc := fun x => 65 :: x
    rsaDec := fun x => some (x.drop 1)
    aesEnc := fun _ _ d => d ++ [1]
    aesDec := fun _ _ d => some d.dropLast
    jsonStringify := fun n => [n % 256]
    jsonParse := fun l => l.head? }

theorem c7_witness :
    ([52] : List Nat) ≠ [] ∧
    encryptDataWithRSA_AES c7Prims (5 : Nat) [52] [7] [9] =
      .ok (encode64 (encode64 (c7Prims.rsaEnc (encode64 [7])) ++ 58 ::
        (encode64 (c7Prims.rsaEnc (encode64 [9])) ++ 58 ::
          encode64 (c7Prims.aesEnc [7] [9] (c7Prims.jsonStringify 5))))) :=
  ⟨by decide, c7_transport_format c7Prims 5 [52] [7] [9] (by decide)⟩

/-- C3 (amended): with a nonempty private key, `decryptDataWithRSA_AES`
raises the format error exactly when one of the first three `':'`-separated
parts of the base64-decoded transport string is missing or empty.  Fewer
than three parts always gives the format error, but a decoded string with
more than three nonempty parts passes the check and proceeds. -/
theorem c3_format_check {α : Type} (pr : CryptoPrims α) (enc priv : List Nat)
    (hpriv : priv ≠ []) :
    (decryptDataWithRSA_AES pr enc priv = .error .formatInvalid ↔
      ((jsSplit 58 (decode64 enc)).getD 0 [] = [] ∨
       (jsSplit 58 (decode64 enc)).getD 1 [] = [] ∨
       (jsSplit 58 (decode64 enc)).getD 2 [] = [])) ∧
    ((jsSplit 58 (decode64 enc)).length < 3 →
      decryptDataWithRSA_AES pr enc priv = .error .formatInvalid) := by
  have hmain : decryptDataWithRSA_AES pr enc priv = .error .formatInvalid ↔
      ((jsSplit 58 (decode64 enc)).getD 0 [] = [] ∨
       (jsSplit 58 (decode64 enc)).getD 1 [] = [] ∨
       (jsSplit 58 (decode64 enc)).getD 2 [] = []) := by
    unfold decryptDataWithRSA_AES
    rw [if_neg hpriv]
    by_cases hc : (jsSplit 58 (decode64 enc)).getD 0 [] = [] ∨
        (jsSplit 58 (decode64 enc)).getD 1 [] = [] ∨
        (jsSplit 58 (decode64 enc)).getD 2 [] = []
    · rw [if_pos hc]
      exact iff_of_true rfl hc
    · rw [if_neg hc]
      simp only [hc, iff_false]
      cases hr1 : pr.rsaDec (decode64 ((jsSplit 58 (decode64 enc)).getD 0 [])) with
      | none => simp
      | some k64 =>
          cases hr2 : pr.rsaDec (decode64 ((jsSplit 58 (decode64 enc)).getD 1 [])) with
          | none => simp
          | some i64 =>
              cases ha : pr.aesDec (decode64 k64) (decode64 i64)
                  (decode64 ((jsSplit 58 (decode64 enc)).getD 2 [])) with
              | none =>
                  unfold List.getD at ha
                  rw [List.get?_eq_getElem?] at ha
                  simp [ha]
              | some plain =>
                  unfold List.getD at ha
                  rw [List.get?_eq_getElem?] at ha
                  cases hj : pr.jsonParse plain with
                  | none => simp [ha, hj]
                  | some v => simp [ha, hj]
  refine ⟨hmain, fun hlen => hmain.mpr ?_⟩
  right; right
  exact List.getD_eq_default _ _ (by omega)

/-- Primitives for the C3 counterexample: identity stand-ins so that the
decryption pipeline runs to completion past the format check. -/
def c3CexPrims : CryptoPrims Nat :=
  { rsaEnc := fun x => x
    rsaDec := fun x => some x
    aesEnc := fun _ _ d => d
    aesDec := fun _ _ d => some d
    jsonStringify := fun n => [n]
    jsonParse := fun _ => some 0 }

/-- C3 counterexample: a transport string whose decoded form "a:b:c:d" has
four `':'`-parts (not three) is not rejected with the format error — the
destructuring only checks that the first three parts are nonempty, so the
operation proceeds. -/
theorem c3_counterexample :
    (jsSplit 58 (decode64 (encode64 (strBytes "a:b:c:d")))).length = 4 ∧
    decryptDataWithRSA_AES c3CexPrims (encode64 (strBytes "a:b:c:d")) [48] =
      .ok 0 ∧
    decryptDataWithRSA_AES c3CexPrims (encode64 (strBytes "a:b:c:d")) [48] ≠
      .error .formatInvalid := by
  refine ⟨by decide, by decide, by decide⟩

theorem c3_witness :
    ([48] : List Nat) ≠ [] ∧
    ((decryptDataWithRSA_AES c3CexPrims (encode64 (strBytes "a:b")) [48] =
        .error .formatInvalid ↔
      ((jsSplit 58 (decode64 (encode64 (strBytes "a:b")))).getD 0 [] = [] ∨
       (jsSplit 58 (decode64 (encode64 (strBytes "a:b")))).getD 1 [] = [] ∨
       (jsSplit 58 (decode64 (encode64 (strBytes "a:b")))).getD 2 [] = [])) ∧
     ((jsSplit 58 (decode64 (encode64 (strBytes "a:b")))).length < 3 →
       decryptDataWithRSA_AES c3CexPrims (encode64 (strBytes "a:b")) [48] =
         .error .formatInvalid)) :=
  ⟨by decide, c3_format_check c3CexPrims (encode64 (strBytes "a:b")) [48]
    (by decide)⟩

theorem getD3 {γ : Type} (a b c : List γ) (d : List γ) :
    [a, b, c].getD 0 d = a ∧ [a, b, c].getD 1 d = b ∧ [a, b, c].getD 2 d = c :=
  ⟨rfl, rfl, rfl⟩

/-- C1: envelope round trip — decrypting the transport string produced by
`encryptDataWithRSA_AES` with the matching private key returns the original
payload.  The RSA-OAEP pair, the AES-CBC cipher and the JSON codec enter as
abstract primitives with the inverse laws a matching key pair satisfies;
key, IV and all primitive outputs are byte strings. -/
theorem c1_envelope_roundtrip {α : Type} (pr : CryptoPrims α) (P : α)
    (pub priv aesKey iv t : List Nat)
    (hpriv : priv ≠ [])
    (hkey : ∀ b ∈ aesKey, b < 256) (hiv : ∀ b ∈ iv, b < 256)
    (hrsaB : ∀ x, (∀ b ∈ x, b < 256) → ∀ b ∈ pr.rsaEnc x, b < 256)
    (haesB : ∀ b ∈ pr.aesEnc aesKey iv (pr.jsonStringify P), b < 256)
    (hrsaNE : ∀ x, pr.rsaEnc x ≠ [])
    (haesNE : pr.aesEnc aesKey iv (pr.jsonStringify P) ≠ [])
    (hrsaInv : ∀ x, (∀ b ∈ x, b < 256) → pr.rsaDec (pr.rsaEnc x) = some x)
    (haesInv : pr.aesDec aesKey iv (pr.aesEnc aesKey iv (pr.jsonStringify P)) =
      some (pr.jsonStringify P))
    (hjsonInv : pr.jsonParse (pr.jsonStringify P) = some P)
    (henc : encryptDataWithRSA_AES pr P pub aesKey iv = .ok t) :
    decryptDataWithRSA_AES pr t priv = .ok P := by
  by_cases hpub : pub = []
  · simp [encryptDataWithRSA_AES, hpub] at henc
  · simp only [encryptDataWithRSA_AES, if_neg hpub, Except.ok.injEq] at henc
    subst henc
    have hkeyE : ∀ b ∈ encode64 aesKey, b < 256 :=
      fun b hb => (encode64_chars aesKey hkey b hb).1
    have hivE : ∀ b ∈ encode64 iv, b < 256 :=
      fun b hb => (encode64_chars iv hiv b hb).1
    have hAin : ∀ b ∈ pr.rsaEnc (encode64 aesKey), b < 256 := hrsaB _ hkeyE
    have hBin : ∀ b ∈ pr.rsaEnc (encode64 iv), b < 256 := hrsaB _ hivE
    have hAch := encode64_chars _ hAin
    have hBch := encode64_chars _ hBin
    have hCch := encode64_chars _ haesB
    have hcombB : ∀ b ∈ encode64 (pr.rsaEnc (encode64 aesKey)) ++ 58 ::
        (encode64 (pr.rsaEnc (encode64 iv)) ++ 58 ::
          encode64 (pr.aesEnc aesKey iv (pr.jsonStringify P))), b < 256 := by
      intro b hb
      simp only [List.mem_append, List.mem_cons] at hb
      rcases hb with h | h | h | h | h
      · exact (hAch b h).1
      · omega
      · exact (hBch b h).1
      · omega
      · exact (hCch b h).1
    have hdec64 := decode64_encode64 _ hcombB
    have hsplit : jsSplit 58 (encode64 (pr.rsaEnc (encode64 aesKey)) ++ 58 ::
        (encode64 (pr.rsaEnc (encode64 iv)) ++ 58 ::
          encode64 (pr.aesEnc aesKey iv (pr.jsonStringify P)))) =
        [encode64 (pr.rsaEnc (encode64 aesKey)),
         encode64 (pr.rsaEnc (encode64 iv)),
         encode64 (pr.aesEnc aesKey iv (pr.jsonStringify P))] :=
      jsSplit_three 58 _ _ _
        (fun h => (hAch 58 h).2.1 rfl)
        (fun h => (hBch 58 h).2.1 rfl)
        (fun h => (hCch 58 h).2.1 rfl)
    have hAne : encode64 (pr.rsaEnc (encode64 aesKey)) ≠ [] :=
      fun h => hrsaNE _ ((encode64_eq_nil _ hAin).mp h)
    have hBne : encode64 (pr.rsaEnc (encode64 iv)) ≠ [] :=
      fun h => hrsaNE _ ((encode64_eq_nil _ hBin).mp h)
    have hCne : encode64 (pr.aesEnc aesKey iv (pr.jsonStringify P)) ≠ [] :=
      fun h => haesNE ((encode64_eq_nil _ haesB).mp h)
    have hdecA : decode64 (encode64 (pr.rsaEnc (encode64 aesKey))) =
        pr.rsaEnc (encode64 aesKey) := decode64_encode64 _ hAin
    have hdecB : decode64 (encode64 (pr.rsaEnc (encode64 iv))) =
        pr.rsaEnc (encode64 iv) := decode64_encode64 _ hBin
    have hdecC : decode64 (encode64 (pr.aesEnc aesKey iv (pr.jsonStringify P))) =
        pr.aesEnc aesKey iv (pr.jsonStringify P) := decode64_encode64 _ haesB
    simp only [decryptDataWithRSA_AES, if_neg hpriv, hdec64, hsplit]
    rw [(getD3 _ _ _ _).1, (getD3 _ _ _ _).2.1, (getD3 _ _ _ _).2.2]
    rw [if_neg (by push_neg; exact ⟨hAne, hBne, hCne⟩)]
    rw [hdecA, hrsaInv _ hkeyE, hdecB, hrsaInv _ hivE]
    show (match pr.aesDec (decode64 (encode64 aesKey)) (decode64 (encode64 iv))
        (decode64 (encode64 (pr.aesEnc aesKey iv (pr.jsonStringify P)))) with
      | none => Except.error DecErr.aesFailed
      | some plain =>
          match pr.jsonParse plain with
          | none => Except.error DecErr.payloadParseFailed
          | some v => Except.ok v) = Except.ok P
    rw [decode64_encode64 aesKey hkey, decode64_encode64 iv hiv, hdecC, haesInv]
    simp [hjsonInv]

/-- Primitives for the C1 witness: invertible stand-ins for the RSA pair, the
AES cipher and the JSON codec. -/
def c1Prims : CryptoPrims Nat :=
  { rsaEnc := fun x => 65 :: x
    rsaDec := fun x => some (x.drop 1)
    aesEnc := fun _ _ d => d ++ [1]
    aesDec := fun k v d => if k = [7] ∧ v = [9] then some d.dropLast else none
    jsonStringify := fun n => [n % 256]
    jsonParse := fun l => l.head? }

theorem c1_witness :
    encryptDataWithRSA_AES c1Prims (5 : Nat) [52] [7] [9] =
      .ok (encode64 (encode64 (c1Prims.rsaEnc (encode64 [7])) ++ 58 ::
        (encode64 (c1Prims.rsaEnc (encode64 [9])) ++ 58 ::
          encode64 (c1Prims.aesEnc [7] [9] (c1Prims.jsonStringify 5))))) ∧
    decryptDataWithRSA_AES c1Prims
      (encode64 (encode64 (c1Prims.rsaEnc (encode64 [7])) ++ 58 ::
        (encode64 (c1Prims.rsaEnc (encode64 [9])) ++ 58 ::
          encode64 (c1Prims.aesEnc [7] [9] (c1Prims.jsonStringify 5))))) [53] =
      .ok 5 :=
  ⟨by decide,
   c1_envelope_roundtrip c1Prims 5 [52] [53] [7] [9] _ (by decide) (by decide)
     (by decide)
     (fun x hx b hb => by
       rcases List.mem_cons.mp hb with h | h
       · omega
       · exact hx b h)
     (by decide) (fun x => by simp [c1Prims]) (by decide)
     (fun x hx => by simp [c1Prims])
     (by decide) (by decide) (by decide)⟩

/-- C8: probabilistic encryption — two calls of `encryptDataWithRSA_AES` on
the same payload and public key that draw distinct fresh key/IV bytes
produce different transport strings: the wrapped-key and wrapped-IV fields
separate them, because the RSA-OAEP wrap of a byte string is invertible and
hence injective, as are base64 and the `':'`-join. -/
theorem c8_fresh_randomness {α : Type} (pr : CryptoPrims α) (P : α)
    (pub k1 v1 k2 v2 t1 t2 : List Nat)
    (hk1 : ∀ b ∈ k1, b < 256) (hv1 : ∀ b ∈ v1, b < 256)
    (hk2 : ∀ b ∈ k2, b < 256) (hv2 : ∀ b ∈ v2, b < 256)
    (hrsaB : ∀ x, (∀ b ∈ x, b < 256) → ∀ b ∈ pr.rsaEnc x, b < 256)
    (hrsaInv : ∀ x, (∀ b ∈ x, b < 256) → pr.rsaDec (pr.rsaEnc x) = some x)
    (haesB1 : ∀ b ∈ pr.aesEnc k1 v1 (pr.jsonStringify P), b < 256)
    (haesB2 : ∀ b ∈ pr.aesEnc k2 v2 (pr.jsonStringify P), b < 256)
    (hne : ¬(k1 = k2 ∧ v1 = v2))
    (h1 : encryptDataWithRSA_AES pr P pub k1 v1 = .ok t1)
    (h2 : encryptDataWithRSA_AES pr P pub k2 v2 = .ok t2) :
    t1 ≠ t2 := by
  by_cases hpub : pub = []
  · simp [encryptDataWithRSA_AES, hpub] at h1
  · simp only [encryptDataWithRSA_AES, if_neg hpub, Except.ok.injEq] at h1 h2
    subst h1
    subst h2
    intro heq
    have hcomb : ∀ (k v : List Nat), (∀ b ∈ k, b < 256) → (∀ b ∈ v, b < 256) →
        (∀ b ∈ pr.aesEnc k v (pr.jsonStringify P), b < 256) →
        ∀ b ∈ encode64 (pr.rsaEnc (encode64 k)) ++ 58 ::
          (encode64 (pr.rsaEnc (encode64 v)) ++ 58 ::
            encode64 (pr.aesEnc k v (pr.jsonStringify P))), b < 256 := by
      intro k v hk hv hB b hb
      have hkE : ∀ b ∈ encode64 k, b < 256 :=
        fun b hb => (encode64_chars k hk b hb).1
      have hvE : ∀ b ∈ encode64 v, b < 256 :=
        fun b hb => (encode64_chars v hv b hb).1
      simp only [List.mem_append, List.mem_cons] at hb
      rcases hb with h | h | h | h | h
      · exact (encode64_chars _ (hrsaB _ hkE) b h).1
      · omega
      · exact (encode64_chars _ (hrsaB _ hvE) b h).1
      · omega
      · exact (encode64_chars _ hB b h).1
    have hcombeq := encode64_inj _ _ (hcomb k1 v1 hk1 hv1 haesB1)
      (hcomb k2 v2 hk2 hv2 haesB2) heq
    have hkE1 : ∀ b ∈ encode64 k1, b < 256 :=
      fun b hb => (encode64_chars k1 hk1 b hb).1
    have hkE2 : ∀ b ∈ encode64 k2, b < 256 :=
      fun b hb => (encode64_chars k2 hk2 b hb).1
    have hvE1 : ∀ b ∈ encode64 v1, b < 256 :=
      fun b hb => (encode64_chars v1 hv1 b hb).1
    have hvE2 : ∀ b ∈ encode64 v2, b < 256 :=
      fun b hb => (encode64_chars v2 hv2 b hb).1
    have hsp : ∀ (k v : List Nat), (∀ b ∈ k, b < 256) → (∀ b ∈ v, b < 256) →
        (∀ b ∈ pr.aesEnc k v (pr.jsonStringify P), b < 256) →
        jsSplit 58 (encode64 (pr.rsaEnc (encode64 k)) ++ 58 ::
          (encode64 (pr.rsaEnc (encode64 v)) ++ 58 ::
            encode64 (pr.aesEnc k v (pr.jsonStringify P)))) =
        [encode64 (pr.rsaEnc (encode64 k)), encode64 (pr.rsaEnc (encode64 v)),
         encode64 (pr.aesEnc k v (pr.jsonStringify P))] := by
      intro k v hk hv hB
      have hkE : ∀ b ∈ encode64 k, b < 256 :=
        fun b hb => (encode64_chars k hk b hb).1
      have hvE : ∀ b ∈ encode64 v, b < 256 :=
        fun b hb => (encode64_chars v hv b hb).1
      exact jsSplit_three 58 _ _ _
        (fun h => (encode64_chars _ (hrsaB _ hkE) 58 h).2.1 rfl)
        (fun h => (encode64_chars _ (hrsaB _ hvE) 58 h).2.1 rfl)
        (fun h => (encode64_chars _ hB 58 h).2.1 rfl)
    have hlists : [encode64 (pr.rsaEnc (encode64 k1)),
        encode64 (pr.rsaEnc (encode64 v1)),
        encode64 (pr.aesEnc k1 v1 (pr.jsonStringify P))] =
        [encode64 (pr.rsaEnc (encode64 k2)), encode64 (pr.rsaEnc (encode64 v2)),
         encode64 (pr.aesEnc k2 v2 (pr.jsonStringify P))] := by
      rw [← hsp k1 v1 hk1 hv1 haesB1, ← hsp k2 v2 hk2 hv2 haesB2, hcombeq]
    simp only [List.cons.injEq, and_true] at hlists
    obtain ⟨hA, hB, -⟩ := hlists
    have hkeq : k1 = k2 := by
      have hr : pr.rsaEnc (encode64 k1) = pr.rsaEnc (encode64 k2) :=
        encode64_inj _ _ (hrsaB _ hkE1) (hrsaB _ hkE2) hA
      have hs : some (encode64 k1) = some (encode64 k2) := by
        rw [← hrsaInv _ hkE1, ← hrsaInv _ hkE2, hr]
      exact encode64_inj _ _ hk1 hk2 (Option.some.inj hs)
    have hveq : v1 = v2 := by
      have hr : pr.rsaEnc (encode64 v1) = pr.rsaEnc (encode64 v2) :=
        encode64_inj _ _ (hrsaB _ hvE1) (hrsaB _ hvE2) hB
      have hs : some (encode64 v1) = some (encode64 v2) := by
        rw [← hrsaInv _ hvE1, ← hrsaInv _ hvE2, hr]
      exact encode64_inj _ _ hv1 hv2 (Option.some.inj hs)
    exact hne ⟨hkeq, hveq⟩

/-- Primitives for the C8 witness. -/
def c8Prims : CryptoPrims Nat :=
  { rsaEnc := fun x => 65 :: x
    rsaDec := fun x => some (x.drop 1)
    aesEnc := fun _ _ d => d ++ [1]
    aesDec := fun _ _ d => some d.dropLast
    jsonStringify := fun n => [n % 256]
    jsonParse := fun l => l.head? }

theorem c8_witness :
    ¬(([7] : List Nat) = [8] ∧ ([9] : List Nat) = [9]) ∧
    encryptDataWithRSA_AES c8Prims (5 : Nat) [52] [7] [9] =
      .ok (encode64 (encode64 (c8Prims.rsaEnc (encode64 [7])) ++ 58 ::
        (encode64 (c8Prims.rsaEnc (encode64 [9])) ++ 58 ::
          encode64 (c8Prims.aesEnc [7] [9] (c8Prims.jsonStringify 5))))) ∧
    encode64 (encode64 (c8Prims.rsaEnc (encode64 [7])) ++ 58 ::
        (encode64 (c8Prims.rsaEnc (encode64 [9])) ++ 58 ::
          encode64 (c8Prims.aesEnc [7] [9] (c8Prims.jsonStringify 5)))) ≠
      encode64 (encode64 (c8Prims.rsaEnc (encode64 [8])) ++ 58 ::
        (encode64 (c8Prims.rsaEnc (encode64 [9])) ++ 58 ::
          encode64 (c8Prims.aesEnc [8] [9] (c8Prims.jsonStringify 5)))) :=
  ⟨by decide, by decide,
   c8_fresh_randomness c8Prims 5 [52] [7] [9] [8] [9] _ _
     (by decide) (by decide) (by decide) (by decide)
     (fun x hx b hb => by
       rcases List.mem_cons.mp hb with h | h
       · omega
       · exact hx b h)
     (fun x hx => by simp [c8Prims])
     (by decide) (by decide) (by decide)
     (by decide) (by decide)⟩
